import Mathlib

/-!
Shallow embedding of the rclone-reporter cache service (src/app.js) and
verification of its specification claims.

Modelling conventions:
* JavaScript strings are modelled as lists of characters (`Str`), so that
  string concatenation is list append and key equality is decidable.
* A JavaScript `Map` is modelled as an association list; `Map.set` replaces
  the value in place when the key is present and appends otherwise, and
  `Map.get` returns the value of the first (unique) matching key.
* Timestamps (`Date` values / ISO strings) are modelled as milliseconds
  since the epoch (`Nat`).  Date subtraction and comparison act on these.
* JavaScript numbers holding byte counts are modelled as `Nat`; signed
  differences as `Int`; the percentage value as `ℚ` with exact
  half-up rounding to two decimals (the idealisation of `toFixed(2)`).
* `async` functions that can reject are modelled with `Except String`;
  a `try`/`catch`/`finally` block becomes explicit case analysis whose
  `finally` part is applied on every branch.
-/

namespace RcloneReporter

/-- JavaScript strings, modelled as lists of characters. -/
abbrev Str := List Char

/-- Lookup in a JavaScript `Map` modelled as an association list
(`Map.prototype.get` / `has`). -/
def mapGet {α : Type} (m : List (Str × α)) (k : Str) : Option α :=
  (m.find? (fun p => p.1 == k)).map (fun p => p.2)

/-- `Map.prototype.set`: replace the entry in place when the key is present,
append a fresh entry otherwise (JS maps keep insertion order). -/
def mapSet {α : Type} (m : List (Str × α)) (k : Str) (v : α) : List (Str × α) :=
  if m.any (fun p => p.1 == k) then
    m.map (fun p => if p.1 == k then (k, v) else p)
  else m ++ [(k, v)]

/-- The key set of a modelled `Map` (`Map.prototype.keys`). -/
def mapKeys {α : Type} (m : List (Str × α)) : List Str := m.map (fun p => p.1)

/-- One cached size entry (the objects stored in `remoteCache.data` /
`localCache.data` in app.js).  Remote entries carry `count := some _`,
local entries `count := none`; `error` is present exactly on the
error-marked entries written by `updateLocalCache`. -/
structure CacheEntry where
  bytes : Nat
  count : Option Nat
  timestamp : Nat
  calculationDurationMs : Nat
  error : Option Str
  deriving Repr, DecidableEq

/-- An entry map, the `data` field of a cache store. -/
abbrev EntryMap := List (Str × CacheEntry)

/-- One cache store (`remoteCache` / `localCache` in app.js):
`data`, `lastUpdated`, `updateInProgress`, `updateStartTime`. -/
structure CacheState where
  data : EntryMap
  lastUpdated : Option Nat
  updateInProgress : Bool
  updateStartTime : Option Nat
  deriving Repr, DecidableEq

/-- The store contents at process start (app.js lines 9-22). -/
def initialCache : CacheState :=
  { data := [], lastUpdated := none, updateInProgress := false, updateStartTime := none }

/-- One size-history sample (`{timestamp, bytes}` in `localSizeHistory`). -/
structure Sample where
  timestamp : Nat
  bytes : Nat
  deriving Repr, DecidableEq

/-- The `localSizeHistory.data` map: directory path to ordered samples. -/
abbrev HistMap := List (Str × List Sample)

/-! ### formatBytes (app.js lines 151-159) -/

/-- The unit table of `formatBytes` (app.js line 155). -/
def sizes : List String := [("Bytes"), ("KB"), ("MB"), ("GB"), ("TB"), ("PB"), ("EB"), ("ZB"), ("YB")]

/-- The unit index `i = Math.floor(Math.log(bytes) / Math.log(1024))`
of `formatBytes` (app.js line 156), written as the explicit comparison
chain it denotes on positive integers. -/
def unitIndex (bytes : Nat) : Nat :=
  if bytes < 1024 then 0
  else if bytes < 1024 ^ 2 then 1
  else if bytes < 1024 ^ 3 then 2
  else if bytes < 1024 ^ 4 then 3
  else if bytes < 1024 ^ 5 then 4
  else if bytes < 1024 ^ 6 then 5
  else if bytes < 1024 ^ 7 then 6
  else if bytes < 1024 ^ 8 then 7
  else if bytes < 1024 ^ 9 then 8
  else 9

/-- The value `(num / den).toFixed(2)` of app.js line 158, expressed in
hundredths: round `num / den * 100` to the nearest integer, ties upward
(the rounding rule of `Number.prototype.toFixed` for positive values). -/
def toFixedHundredths (num den : Nat) : Nat := (200 * num + den) / (2 * den)

/-- Decimal rendering of a value given in hundredths, as JavaScript prints
the number `parseFloat(x.toFixed(2))`: at most two decimals, trailing
zeros and a trailing decimal point dropped. -/
def hundredthsToString (hundredths : Nat) : String :=
  let whole := hundredths / 100
  let frac := hundredths % 100
  if frac = 0 then toString whole
  else if frac % 10 = 0 then toString whole ++ (".") ++ toString (frac / 10)
  else if frac < 10 then toString whole ++ (".0") ++ toString frac
  else toString whole ++ (".") ++ toString frac

/-- `formatBytes` (app.js lines 151-159): binary 1024-based units with two
decimal places, `0 Bytes` for zero.  For `bytes ≥ 1024 ^ 9` the JavaScript
source indexes past the end of `sizes` and concatenates `undefined`. -/
def formatBytes (bytes : Nat) : String :=
  if bytes = 0 then ("0 Bytes")
  else
    let i := unitIndex bytes
    hundredthsToString (toFixedHundredths bytes (1024 ^ i)) ++ (" ") ++ sizes.getD i ("undefined")

/-- Claim C10: the byte formatter uses binary 1024-based units Bytes
through YB with 2 decimal places and returns `0 Bytes` for zero; in
particular `formatBytes 0 = "0 Bytes"` and
`formatBytes 1649267441664 = "1.5 TB"`.  The third conjunct states the
binary-unit selection: for positive inputs below `1024 ^ 9` the chosen
unit index `i` satisfies `1024 ^ i ≤ bytes < 1024 ^ (i + 1)`, so the
printed mantissa is `bytes / 1024 ^ i` rounded to two decimals with the
`i`-th of the nine units Bytes…YB. -/
theorem formatBytes_spec :
    formatBytes 0 = ("0 Bytes") ∧
    formatBytes 1649267441664 = ("1.5 TB") ∧
    ∀ bytes : Nat, 0 < bytes → bytes < 1024 ^ 9 →
      1024 ^ unitIndex bytes ≤ bytes ∧
      bytes < 1024 ^ (unitIndex bytes + 1) ∧
      unitIndex bytes < sizes.length ∧
      formatBytes bytes =
        hundredthsToString (toFixedHundredths bytes (1024 ^ unitIndex bytes)) ++ (" ")
          ++ sizes.getD (unitIndex bytes) ("undefined") := by
  refine ⟨by decide, by decide, ?_⟩
  intro bytes hpos hlt
  have hne : bytes ≠ 0 := Nat.pos_iff_ne_zero.mp hpos
  refine ⟨?_, ?_, ?_, ?_⟩
  · unfold unitIndex
    split_ifs <;> omega
  · unfold unitIndex
    split_ifs <;> omega
  · unfold unitIndex
    split_ifs <;> simp [sizes]
  · simp [formatBytes, hne]

/-- Witness for `formatBytes_spec`: instantiate the quantified conjunct at
`bytes = 5000`, which lies in the KB band. -/
theorem formatBytes_spec_witness :
    1024 ^ unitIndex 5000 ≤ 5000 ∧ 5000 < 1024 ^ (unitIndex 5000 + 1) := by
  have h := formatBytes_spec.2.2 5000 (by decide) (by norm_num)
  exact ⟨h.1, h.2.1⟩

/-! ### Size history (localSizeHistory, app.js lines 291-310, 379-385, 547-553) -/

/-- Thirty days in milliseconds (app.js line 305). -/
def thirtyDaysMs : Nat := 30 * 24 * 60 * 60 * 1000

/-- History append as performed inside a local refresh cycle
(app.js lines 296-310): push `(now, bytes)` only when the record is empty
or the last sample's bytes differs, then keep only the samples strictly
newer than `now - 30 days` (`new Date(entry.timestamp) > thirtyDaysAgo`).
The cutoff is compared in `Int` because the JavaScript `Date` difference
may be negative. -/
def historyAppendCycle (history : List Sample) (now bytes : Nat) : List Sample :=
  if history.getLast?.all (fun lastEntry => lastEntry.bytes != bytes) then
    (history ++ [Sample.mk now bytes]).filter
      (fun e => decide ((now : Int) - (thirtyDaysMs : Int) < (e.timestamp : Int)))
  else history

/-- History append as performed by `addToLocalCache` (app.js lines 379-385)
and by the query-time fallback in the compare endpoint (app.js lines
547-553): an unconditional push with neither deduplication nor pruning. -/
def historyAppendOnDemand (history : List Sample) (now bytes : Nat) : List Sample :=
  history ++ [Sample.mk now bytes]

/-! ### Remote refresh cycle (updateRemoteCache, app.js lines 165-238) -/

/-- One iteration of the remote probe loop (app.js lines 177-212): probe
`${remote}:`; on success store the entry into the working snapshot, on
any probe failure leave the working snapshot untouched and continue. -/
def updateRemoteCacheStep (probe : Str → Except Str (Nat × Nat)) (nowFor durFor : Str → Nat)
    (temp : EntryMap) (remote : Str) : EntryMap :=
  let remotePath := remote ++ [':']
  match probe remotePath with
  | Except.ok bc =>
      mapSet temp remotePath
        { bytes := bc.1, count := some bc.2, timestamp := nowFor remotePath,
          calculationDurationMs := durFor remotePath, error := none }
  | Except.error _ => temp

/-- The `finally` block of `updateRemoteCache` (app.js lines 231-237):
publish the working snapshot wholesale and clear the in-progress flag and
start time. -/
def remoteCycleFinally (tempData : EntryMap) (lastUpdated : Option Nat) : CacheState :=
  { data := tempData, lastUpdated := lastUpdated, updateInProgress := false,
    updateStartTime := none }

/-- `updateRemoteCache` (app.js lines 165-238).  The working snapshot is
seeded from a copy of the current snapshot (line 168).  `listing` is the
result of `getAvailableRemotes()` (already split and with the trailing
colon of each line stripped, app.js lines 96-112); if it errors, the
`catch` block swallows the error before `lastUpdated` is assigned, and the
`finally` block publishes the seeded, unmodified working snapshot.
`probe` is `getRcloneSize` for one remote path; `nowFor`/`durFor` give the
entry timestamp and measured duration of each probe; `endNow` is the cycle
end time assigned to `lastUpdated` on success. -/
def updateRemoteCache (s : CacheState) (listing : Except Str (List Str))
    (probe : Str → Except Str (Nat × Nat)) (nowFor durFor : Str → Nat) (endNow : Nat) :
    CacheState :=
  let temp := s.data
  match listing with
  | Except.error _ => remoteCycleFinally temp s.lastUpdated
  | Except.ok remotes =>
      remoteCycleFinally (remotes.foldl (updateRemoteCacheStep probe nowFor durFor) temp)
        (some endNow)

/-! ### Local refresh cycle (updateLocalCache, app.js lines 244-350) -/

/-- The error-marking patch of the local cycle (app.js lines 268-272 and
319-323): spread the previous entry and overwrite `error` and `timestamp`.
The `none` case is unreachable in a cycle (the directory came from the
store's key set) and defaults the remaining fields. -/
def errorPatch (old : Option CacheEntry) (msg : Str) (now : Nat) : CacheEntry :=
  match old with
  | some e => { e with error := some msg, timestamp := now }
  | none => { bytes := 0, count := none, timestamp := now, calculationDurationMs := 0,
              error := some msg }

/-- Mid-cycle state of a local refresh: the live store map (the target of
the error-marking patches), the temporary working map, and the history
map. -/
structure LocalScan where
  live : EntryMap
  temp : EntryMap
  hist : HistMap
  deriving Repr, DecidableEq

/-- One iteration of the local directory loop (app.js lines 258-325):
a vanished directory or a failing probe patches the *live* store with an
error marker; a successful probe writes into the working snapshot and
appends a deduplicated, pruned history sample. -/
def updateLocalCacheStep (ex : Str → Bool) (probe : Str → Except Str Nat)
    (nowFor durFor : Str → Nat) (st : LocalScan) (dir : Str) : LocalScan :=
  if ex dir = false then
    let patched := errorPatch (mapGet st.live dir) ("Directory no longer exists").data (nowFor dir)
    { st with live := mapSet st.live dir patched }
  else
    match probe dir with
    | Except.ok bytes =>
        let entry : CacheEntry :=
          { bytes := bytes, count := none, timestamp := nowFor dir,
            calculationDurationMs := durFor dir, error := none }
        let newHist := historyAppendCycle ((mapGet st.hist dir).getD []) (nowFor dir) bytes
        { st with temp := mapSet st.temp dir entry, hist := mapSet st.hist dir newHist }
    | Except.error msg =>
        let patched := errorPatch (mapGet st.live dir) msg (nowFor dir)
        { st with live := mapSet st.live dir patched }

/-- The `finally` block of `updateLocalCache` (app.js lines 343-349):
replace the live map with a copy of the temporary map (discarding any
mid-cycle live patches), and clear the in-progress flag and start time. -/
def localCycleFinally (tempData : EntryMap) (lastUpdated : Option Nat) (hist : HistMap) :
    CacheState × HistMap :=
  ({ data := tempData, lastUpdated := lastUpdated, updateInProgress := false,
     updateStartTime := none }, hist)

/-- `updateLocalCache` (app.js lines 244-350).  Note that, unlike
`updateRemoteCache`, the body never seeds `localCacheTemp` from the live
store: the working snapshot starts as whatever `tempIn` already holds
(empty at every entry, since the previous `finally` cleared it).  An empty
store returns early (line 246), but the `finally` block still runs.
`ex` is `fs.existsSync`; `probe` is `getDirectorySize`. -/
def updateLocalCache (s : CacheState) (tempIn : EntryMap) (hist : HistMap)
    (ex : Str → Bool) (probe : Str → Except Str Nat) (nowFor durFor : Str → Nat)
    (endNow : Nat) : CacheState × HistMap :=
  if s.data.length = 0 then
    localCycleFinally tempIn s.lastUpdated hist
  else
    let dirs := mapKeys s.data
    let result := dirs.foldl (updateLocalCacheStep ex probe nowFor durFor)
      { live := s.data, temp := tempIn, hist := hist }
    localCycleFinally result.temp (some endNow) result.hist

/-! ### Scheduler and triggers (app.js lines 400-449 and 645-708) -/

/-- Scheduler-visible control state of one store, together with a ghost
counter `activeCycles`: the number of refresh-cycle invocations launched
(`updateRemoteCache()` / `updateLocalCache()` calls) whose `finally` block
has not yet run.  Each launching trigger increments it; each cycle return
decrements it. -/
structure SchedState where
  updateInProgress : Bool
  updateStartTime : Option Nat
  activeCycles : Nat
  deriving Repr, DecidableEq

/-- Scheduler control state at process start. -/
def schedInit : SchedState :=
  { updateInProgress := false, updateStartTime := none, activeCycles := 0 }

/-- A scheduled trigger for either store: the startup `setTimeout` handler
(app.js lines 404-417) and both `setInterval` handlers (lines 426-434 and
440-448).  Each sets the flag and start time and launches the cycle
unconditionally — none of them inspects `updateInProgress` first. -/
def scheduledTick (s : SchedState) (now : Nat) : SchedState :=
  { updateInProgress := true, updateStartTime := some now,
    activeCycles := s.activeCycles + 1 }

/-- The manual-refresh trigger for the remote store (app.js lines
650-665): launch only when no update is flagged as in progress. -/
def manualRemoteTrigger (s : SchedState) (now : Nat) : SchedState :=
  if s.updateInProgress then s
  else { updateInProgress := true, updateStartTime := some now,
         activeCycles := s.activeCycles + 1 }

/-- The manual-refresh trigger for the local store (app.js lines 668-685):
launch only when no update is flagged as in progress and the store is
non-empty. -/
def manualLocalTrigger (s : SchedState) (storeSize now : Nat) : SchedState :=
  if s.updateInProgress then s
  else if 0 < storeSize then
    { updateInProgress := true, updateStartTime := some now,
      activeCycles := s.activeCycles + 1 }
  else s

/-- Return of a refresh cycle: its `finally` block clears the flag and
start time (app.js lines 235-236 and 347-348) and the in-flight counter
drops. -/
def cycleReturn (s : SchedState) : SchedState :=
  { updateInProgress := false, updateStartTime := none,
    activeCycles := s.activeCycles - 1 }

/-- Claim C1 is false on the code: a manual refresh launches a cycle
(`updateInProgress` becomes true, one cycle in flight), and a scheduled
interval tick arriving while that cycle is still running does not check
the flag and launches a second cycle for the same store, so two cycles are
in flight concurrently — the trigger is not skipped. -/
theorem scheduled_tick_overlap_counterexample :
    (manualRemoteTrigger schedInit 0).updateInProgress = true ∧
    (manualRemoteTrigger schedInit 0).activeCycles = 1 ∧
    (scheduledTick (manualRemoteTrigger schedInit 0) 1).activeCycles = 2 := by
  decide

/-- Claim C1 amended: only the manual refresh triggers guard the launch
with a check of the refresh-in-progress flag and skip (never queue) when a
cycle is already running; the scheduled interval ticks and the startup
trigger set the flag and launch a cycle unconditionally without checking
it, so a scheduled trigger arriving during a running cycle starts a second
concurrent cycle for the same store. -/
theorem trigger_guard_spec (s : SchedState) (size now : Nat) :
    (s.updateInProgress = true →
      manualRemoteTrigger s now = s ∧ manualLocalTrigger s size now = s) ∧
    (s.updateInProgress = false →
      (manualRemoteTrigger s now).activeCycles = s.activeCycles + 1 ∧
      (manualRemoteTrigger s now).updateInProgress = true) ∧
    (s.updateInProgress = false → 0 < size →
      (manualLocalTrigger s size now).activeCycles = s.activeCycles + 1) ∧
    (scheduledTick s now).activeCycles = s.activeCycles + 1 := by
  refine ⟨fun h => ?_, fun h => ?_, fun h hs => ?_, rfl⟩
  · simp [manualRemoteTrigger, manualLocalTrigger, h]
  · simp [manualRemoteTrigger, h]
  · simp [manualLocalTrigger, h, hs]

/-- Witness for `trigger_guard_spec`: with a cycle in flight the manual
trigger is a no-op, and a scheduled tick from the initial state launches
one cycle. -/
theorem trigger_guard_spec_witness :
    manualRemoteTrigger (manualRemoteTrigger schedInit 0) 1 = manualRemoteTrigger schedInit 0 ∧
    (scheduledTick schedInit 5).activeCycles = schedInit.activeCycles + 1 :=
  ⟨((trigger_guard_spec (manualRemoteTrigger schedInit 0) 0 1).1 (by decide)).1,
   (trigger_guard_spec schedInit 0 5).2.2.2⟩

/-- Claim C7: if the remote-listing call errors during a remote refresh
cycle, the cycle fails with no change to the snapshot contents (the
working snapshot was seeded from the current one and is published
unmodified) and no change to the last-successful-update time. -/
theorem remote_listing_error_no_change (s : CacheState) (e : Str)
    (probe : Str → Except Str (Nat × Nat)) (nowFor durFor : Str → Nat) (endNow : Nat) :
    (updateRemoteCache s (Except.error e) probe nowFor durFor endNow).data = s.data ∧
    (updateRemoteCache s (Except.error e) probe nowFor durFor endNow).lastUpdated
      = s.lastUpdated ∧
    ∀ k, mapGet (updateRemoteCache s (Except.error e) probe nowFor durFor endNow).data k
      = mapGet s.data k := by
  refine ⟨rfl, rfl, fun k => rfl⟩

/-- Claim C8: for both the remote and the local refresh cycle, whatever
the listing outcome, probe outcomes, filesystem state or store contents
(including the local cycle's empty-store early return and the
listing-error abort), the cycle function's `finally` block leaves the
store with the refresh-in-progress flag cleared and the refresh start
time absent. -/
theorem refresh_cycle_clears_flags (s t : CacheState) (tempIn : EntryMap) (hist : HistMap)
    (listing : Except Str (List Str)) (probeR : Str → Except Str (Nat × Nat))
    (probeL : Str → Except Str Nat) (ex : Str → Bool) (nowFor durFor : Str → Nat)
    (endNow : Nat) :
    (updateRemoteCache s listing probeR nowFor durFor endNow).updateInProgress = false ∧
    (updateRemoteCache s listing probeR nowFor durFor endNow).updateStartTime = none ∧
    (updateLocalCache t tempIn hist ex probeL nowFor durFor endNow).1.updateInProgress
      = false ∧
    (updateLocalCache t tempIn hist ex probeL nowFor durFor endNow).1.updateStartTime
      = none := by
  refine ⟨?_, ?_, ?_, ?_⟩ <;>
    cases listing <;>
      simp [updateRemoteCache, updateLocalCache, remoteCycleFinally, localCycleFinally] <;>
        split <;> simp [localCycleFinally]

/-! ### Claim C2: the local cycle does not retain unprobed entries -/

/-- An example tracked directory path. -/
def exampleDir : Str := ("/data").data

/-- An example cached entry for `exampleDir`. -/
def exampleEntry : CacheEntry :=
  { bytes := 42, count := none, timestamp := 100, calculationDurationMs := 7, error := none }

/-- A local store tracking `exampleDir` with `exampleEntry`. -/
def exampleLocalStore : CacheState :=
  { data := [(exampleDir, exampleEntry)], lastUpdated := some 100,
    updateInProgress := true, updateStartTime := some 200 }

/-- A directory-size probe that always fails. -/
def probeAlwaysFails : Str → Except Str Nat := fun _ => Except.error ("EACCES").data

/-- A filesystem on which every path exists. -/
def fsAllExist : Str → Bool := fun _ => true

/-- A clock that always reads 300. -/
def clockAt300 : Str → Nat := fun _ => 300

/-- Claim C2 fails on the code (code bug): `updateLocalCache` never seeds
its working snapshot from the current snapshot (its sibling
`updateRemoteCache` does, app.js line 168), so a tracked path whose probe
fails during the cycle — here `/data`, whose probe errors — is absent from
the published snapshot instead of retaining its prior entry; the
mid-cycle error patch to the live store is also discarded by the
`finally` swap, contradicting the source's own comment that the entry is
kept. -/
theorem local_cycle_drops_unprobed_entry :
    mapGet exampleLocalStore.data exampleDir = some exampleEntry ∧
    (updateLocalCache exampleLocalStore [] [] fsAllExist probeAlwaysFails
        clockAt300 clockAt300 400).1.data = [] ∧
    mapGet (updateLocalCache exampleLocalStore [] [] fsAllExist probeAlwaysFails
        clockAt300 clockAt300 400).1.data exampleDir = none := by
  decide

/-! ### Claim C3: history appends -/

/-- Claim C3 is false on the code: the on-demand append performed by
`addToLocalCache` (and identically by the query-time fallback) pushes a
sample even when its bytes equal the last sample's bytes, so appending the
same value twice in a row grows the record from length 1 to length 2. -/
theorem history_on_demand_append_counterexample :
    historyAppendOnDemand [⟨0, 100⟩] 1 100 = [⟨0, 100⟩, ⟨1, 100⟩] ∧
    (historyAppendOnDemand [⟨0, 100⟩] 1 100).length ≠ 1 := by
  decide

/-- Claim C3 amended: only the append performed during a local refresh
cycle deduplicates and prunes: it appends `(now, bytes)` only if the
record is empty or the last sample's bytes differs (appending an equal
value leaves the record unchanged), and after an append every retained
sample is strictly newer than the new sample's timestamp minus 30 days,
with the new sample as the record's last element.  The appends of the
on-demand insert and of the query-time fallback push unconditionally and
never prune. -/
theorem history_append_spec (h : List Sample) (now bytes : Nat) :
    (∀ lastEntry, h.getLast? = some lastEntry → lastEntry.bytes = bytes →
      historyAppendCycle h now bytes = h) ∧
    ((h = [] ∨ ∃ lastEntry, h.getLast? = some lastEntry ∧ lastEntry.bytes ≠ bytes) →
      (historyAppendCycle h now bytes).getLast? = some ⟨now, bytes⟩ ∧
      ∀ e ∈ historyAppendCycle h now bytes,
        (now : Int) - (thirtyDaysMs : Int) < (e.timestamp : Int)) ∧
    historyAppendOnDemand h now bytes = h ++ [⟨now, bytes⟩] := by
  refine ⟨fun lastEntry hlast hbytes => ?_, fun hcond => ?_, rfl⟩
  · simp [historyAppendCycle, hlast, hbytes]
  · have hif : h.getLast?.all (fun lastEntry => lastEntry.bytes != bytes) = true := by
      rcases hcond with hnil | ⟨lastEntry, hlast, hne⟩
      · simp [hnil]
      · simp [hlast, hne]
    have hnew : decide ((now : Int) - (thirtyDaysMs : Int) < ((⟨now, bytes⟩ : Sample).timestamp : Int)) = true := by
      simp [thirtyDaysMs]
    constructor
    · simp only [historyAppendCycle, hif, if_true, List.filter_append]
      rw [List.getLast?_append_of_ne_nil]
      · simp [hnew, thirtyDaysMs]
      · simp [hnew, thirtyDaysMs]
    · intro e he
      simp only [historyAppendCycle, hif, if_true, List.mem_filter] at he
      exact of_decide_eq_true he.2

/-- Witness for `history_append_spec`: appending equal bytes during a
cycle leaves the record unchanged; appending different bytes puts the new
sample at the end. -/
theorem history_append_spec_witness :
    historyAppendCycle [⟨0, 100⟩] 5 100 = [⟨0, 100⟩] ∧
    (historyAppendCycle [⟨0, 100⟩] 5 200).getLast? = some ⟨5, 200⟩ :=
  ⟨(history_append_spec [⟨0, 100⟩] 5 100).1 ⟨0, 100⟩ rfl rfl,
   ((history_append_spec [⟨0, 100⟩] 5 200).2.1 (Or.inr ⟨⟨0, 100⟩, rfl, by decide⟩)).1⟩

/-! ### getLastModified (app.js lines 456-480) -/

/-- Truncation of a timestamp to the start of its hour:
`changeTime.setMinutes(0, 0, 0)` zeroes minutes, seconds and milliseconds
(app.js lines 467 and 475), modelled on epoch milliseconds. -/
def truncHour (t : Nat) : Nat := t - t % 3600000

/-- Default sample for the loop's array reads (every read performed by the
source loop is in bounds, so the default is never returned). -/
def noSample : Sample := Sample.mk 0 0

/-- The scan loop of `getLastModified` (app.js lines 463-470): the index
counts down from `history.length - 1` and stops before 0; at index `j + 1`
the loop returns the hour-truncated timestamp of `history[j+1]` as soon as
its bytes differ from those of `history[j]`. -/
def lastChangeScan (history : List Sample) : Nat → Option Nat
  | 0 => none
  | j + 1 =>
      if (history.getD (j + 1) noSample).bytes ≠ (history.getD j noSample).bytes then
        some (truncHour (history.getD (j + 1) noSample).timestamp)
      else lastChangeScan history j

/-- `getLastModified` (app.js lines 456-480): scan the history record of
the path from newest to oldest for the most recent size change; fall back
to the first entry's hour-truncated timestamp when no change is found;
`none` for an absent or empty record (the source guard
`!history || history.length === 0` collapses an absent record and an
empty one, rendered here by defaulting an absent record to `[]`). -/
def getLastModified (hist : HistMap) (directoryPath : Str) : Option Nat :=
  let history := (mapGet hist directoryPath).getD []
  if history.length = 0 then none
  else
    match lastChangeScan history (history.length - 1) with
    | some t => some t
    | none =>
        if 0 < history.length then some (truncHour (history.headD noSample).timestamp)
        else none

/-- When every adjacent pair of samples has equal bytes up to the scan's
starting index, the scan finds nothing. -/
theorem lastChangeScan_eq_none (history : List Sample)
    (hEq : ∀ j, j + 1 < history.length →
      (history.getD (j + 1) noSample).bytes = (history.getD j noSample).bytes) :
    ∀ c, c ≤ history.length - 1 → lastChangeScan history c = none := by
  intro c
  induction c with
  | zero => intro _; rfl
  | succ j ih =>
      intro hc
      have hlt : j + 1 < history.length := by omega
      have hcond : ¬ ((history.getD (j + 1) noSample).bytes
          ≠ (history.getD j noSample).bytes) := not_not_intro (hEq j hlt)
      simp only [lastChangeScan, if_neg hcond]
      exact ih (by omega)

/-- When the pair at index `k` differs and every adjacent pair above `k`
is equal, the scan started anywhere from `k` up to the last index returns
the hour-truncated timestamp of `history[k]`. -/
theorem lastChangeScan_finds (history : List Sample) (k : Nat)
    (hk1 : 1 ≤ k) (_hkLen : k < history.length)
    (hDiff : (history.getD k noSample).bytes ≠ (history.getD (k - 1) noSample).bytes)
    (hEq : ∀ j, k ≤ j → j + 1 < history.length →
      (history.getD (j + 1) noSample).bytes = (history.getD j noSample).bytes) :
    ∀ m, k + m ≤ history.length - 1 →
      lastChangeScan history (k + m)
        = some (truncHour (history.getD k noSample).timestamp) := by
  intro m
  induction m with
  | zero =>
      intro _
      obtain ⟨j, rfl⟩ : ∃ j, k = j + 1 := ⟨k - 1, by omega⟩
      have hj : j + 1 - 1 = j := by omega
      rw [hj] at hDiff
      simp only [Nat.add_zero, lastChangeScan, if_pos hDiff]
  | succ m ih =>
      intro hle
      have heq : (history.getD (k + m + 1) noSample).bytes
          = (history.getD (k + m) noSample).bytes :=
        hEq (k + m) (by omega) (by omega)
      have hcond : ¬ ((history.getD (k + m + 1) noSample).bytes
          ≠ (history.getD (k + m) noSample).bytes) := not_not_intro heq
      have hrw : k + (m + 1) = (k + m) + 1 := rfl
      rw [hrw]
      simp only [lastChangeScan, if_neg hcond]
      exact ih (by omega)

/-- The scan of a record `pre ++ a :: b :: post` in which `a`/`b` is the
newest differing adjacent pair returns `b`'s hour-truncated timestamp. -/
theorem lastChangeScan_decomp (pre : List Sample) (a b : Sample) (post : List Sample)
    (hab : a.bytes ≠ b.bytes)
    (hchain : List.Chain' (fun x y => x.bytes = y.bytes) (b :: post)) :
    lastChangeScan (pre ++ a :: b :: post) ((pre ++ a :: b :: post).length - 1)
      = some (truncHour b.timestamp) := by
  have hsplit : pre ++ a :: b :: post = (pre ++ [a]) ++ b :: post := by simp
  have hlen : (pre ++ a :: b :: post).length = pre.length + 2 + post.length := by
    simp; omega
  have hgetb : (pre ++ a :: b :: post).getD (pre.length + 1) noSample = b := by
    rw [hsplit, List.getD_append_right _ _ _ _ (by simp)]
    simp
  have hgeta : (pre ++ a :: b :: post).getD pre.length noSample = a := by
    rw [List.getD_append_right _ _ _ _ (le_refl _)]
    simp
  have hEq : ∀ j, pre.length + 1 ≤ j → j + 1 < (pre ++ a :: b :: post).length →
      ((pre ++ a :: b :: post).getD (j + 1) noSample).bytes
        = ((pre ++ a :: b :: post).getD j noSample).bytes := by
    intro j hj hjlen
    rw [hlen] at hjlen
    rw [hsplit, List.getD_append_right _ _ _ _ (by simp; omega),
        List.getD_append_right _ _ _ _ (by simp; omega)]
    have hi : j + 1 - (pre ++ [a]).length = (j - (pre ++ [a]).length) + 1 := by
      simp; omega
    rw [hi]
    have hcg := List.chain'_iff_get.mp hchain (j - (pre ++ [a]).length)
      (by simp; omega)
    rw [List.getD_eq_getElem _ _ (by simp; omega), List.getD_eq_getElem _ _ (by simp; omega)]
    simpa using hcg.symm
  have hDiff : ((pre ++ a :: b :: post).getD (pre.length + 1) noSample).bytes
      ≠ ((pre ++ a :: b :: post).getD (pre.length + 1 - 1) noSample).bytes := by
    have h1 : pre.length + 1 - 1 = pre.length := rfl
    rw [h1, hgetb, hgeta]
    exact Ne.symm hab
  have hmain := lastChangeScan_finds (pre ++ a :: b :: post) (pre.length + 1)
    (by omega) (by rw [hlen]; omega) hDiff hEq post.length (by rw [hlen]; omega)
  rw [hgetb] at hmain
  have hidx : (pre ++ a :: b :: post).length - 1 = pre.length + 1 + post.length := by
    rw [hlen]; omega
  rw [hidx, hmain]

/-- Claim C6: for every local path with a non-empty history record,
`getLastModified` returns the hour-truncated timestamp of the newest
sample whose bytes differ from its immediate predecessor (third conjunct:
the record decomposes as `pre ++ a :: b :: post` with `a`, `b` the newest
differing adjacent pair, and `b`'s hour is returned); if no two
consecutive samples differ it returns the oldest sample's hour-truncated
timestamp (second conjunct); it returns `none` exactly when the record is
empty or absent (first conjunct); and on `[(t0,100),(t1,100),(t2,200),
(t3,200)]` it returns `t2` truncated to its hour start (fourth
conjunct). -/
theorem getLastModified_spec (hist : HistMap) (p : Str) :
    (getLastModified hist p = none ↔ mapGet hist p = none ∨ mapGet hist p = some []) ∧
    (∀ history, mapGet hist p = some history → history ≠ [] →
      List.Chain' (fun x y => x.bytes = y.bytes) history →
      getLastModified hist p = some (truncHour (history.headD noSample).timestamp)) ∧
    (∀ pre a b post, mapGet hist p = some (pre ++ a :: b :: post) →
      a.bytes ≠ b.bytes →
      List.Chain' (fun x y => x.bytes = y.bytes) (b :: post) →
      getLastModified hist p = some (truncHour b.timestamp)) ∧
    (∀ t0 t1 t2 t3 : Nat, mapGet hist p =
        some [Sample.mk t0 100, Sample.mk t1 100, Sample.mk t2 200, Sample.mk t3 200] →
      getLastModified hist p = some (truncHour t2)) := by
  have hpart3 : ∀ pre a b post, mapGet hist p = some (pre ++ a :: b :: post) →
      a.bytes ≠ b.bytes →
      List.Chain' (fun x y => x.bytes = y.bytes) (b :: post) →
      getLastModified hist p = some (truncHour b.timestamp) := by
    intro pre a b post hm hab hchain
    have hlen0 : ¬ (pre ++ a :: b :: post).length = 0 := by simp
    simp only [getLastModified, hm, Option.getD_some, if_neg hlen0,
      lastChangeScan_decomp pre a b post hab hchain]
  refine ⟨?_, ?_, hpart3, ?_⟩
  · cases hm : mapGet hist p with
    | none => simp [getLastModified, hm]
    | some history =>
        by_cases hne : history = []
        · subst hne
          simp [getLastModified, hm]
        · have hlen0 : ¬ history.length = 0 := by simpa using hne
          constructor
          · intro habs
            exfalso
            simp only [getLastModified, hm, Option.getD_some, if_neg hlen0] at habs
            cases hscan : lastChangeScan history (history.length - 1) with
            | some t =>
                simp only [hscan] at habs
                exact Option.noConfusion habs
            | none =>
                simp only [hscan, if_pos (show 0 < history.length by omega)] at habs
                exact Option.noConfusion habs
          · intro hor
            rcases hor with h | h
            · exact Option.noConfusion h
            · exact absurd (Option.some.inj h) hne
  · intro history hm hne hchain
    have hlen0 : ¬ history.length = 0 := by simpa using hne
    have hEq : ∀ j, j + 1 < history.length →
        (history.getD (j + 1) noSample).bytes = (history.getD j noSample).bytes := by
      intro j hj
      have hcg := List.chain'_iff_get.mp hchain j (by omega)
      rw [List.getD_eq_getElem _ _ hj, List.getD_eq_getElem _ _ (by omega)]
      simpa using hcg.symm
    have hscan := lastChangeScan_eq_none history hEq (history.length - 1) le_rfl
    simp only [getLastModified, hm, Option.getD_some, if_neg hlen0, hscan,
      if_pos (show 0 < history.length by omega)]
  · intro t0 t1 t2 t3 hm
    exact hpart3 [Sample.mk t0 100] (Sample.mk t1 100) (Sample.mk t2 200)
      [Sample.mk t3 200] (by simpa using hm) (by simp) (by simp [List.chain'_cons])

/-- An example tracked path with a history record whose newest size change
happened at timestamp 10800013 (inside hour 3 of the epoch). -/
def exampleHistPath : Str := ("/media").data

/-- The example history record of `exampleHistPath`. -/
def exampleHist : HistMap :=
  [(exampleHistPath,
    [Sample.mk 3600005 100, Sample.mk 7200008 100, Sample.mk 10800013 200,
     Sample.mk 14400002 200])]

/-- Witness for `getLastModified_spec`: on the example record the newest
change is the third sample, and its timestamp truncates to 10800000. -/
theorem getLastModified_spec_witness :
    getLastModified exampleHist exampleHistPath = some 10800000 := by
  have h := (getLastModified_spec exampleHist exampleHistPath).2.2.2
    3600005 7200008 10800013 14400002 (by decide)
  rw [h]
  decide

/-! ### formatDateToLocal (app.js lines 487-504) -/

/-- Conversion of a day count since 1970-01-01 to a proleptic-Gregorian
civil date `(year, month, day)`, modelling the `Date` component getters
used by `formatDateToLocal`. -/
def civilFromDays (z : Nat) : Nat × Nat × Nat :=
  let z' := z + 719468
  let era := z' / 146097
  let doe := z' % 146097
  let yoe := (doe - doe / 1460 + doe / 36524 - doe / 146097) / 365
  let y := yoe + era * 400
  let doy := doe - (365 * yoe + yoe / 4 - yoe / 100)
  let mp := (5 * doy + 2) / 153
  let d := doy - (153 * mp + 2) / 5 + 1
  let m := if mp < 10 then mp + 3 else mp - 9
  (if m ≤ 2 then y + 1 else y, m, d)

/-- Two-digit zero padding (`padStart(2, '0')`). -/
def pad2 (n : Nat) : String := if n < 10 then ("0") ++ toString n else toString n

/-- `formatDateToLocal` (app.js lines 487-504): `DD/MM/YY H(AM|PM)` with a
12-hour clock (hour 0 printed as 12), `none` for an absent date.  The
host timezone is modelled as UTC. -/
def formatDateToLocal : Option Nat → Option String
  | none => none
  | some ms =>
      let ymd := civilFromDays (ms / 86400000)
      let hours := ms / 3600000 % 24
      let ampm := if 12 ≤ hours then ("PM") else ("AM")
      let h12 := if hours % 12 = 0 then 12 else hours % 12
      some (pad2 ymd.2.2 ++ ("/") ++ pad2 ymd.2.1 ++ ("/") ++ pad2 (ymd.1 % 100)
        ++ (" ") ++ toString h12 ++ ampm)

/-! ### Compare endpoint (app.js lines 509-640) -/

/-- Rounding to two decimals, the idealisation of
`parseFloat(x.toFixed(2))` on exact rationals (`toFixed` rounds to the
nearest hundredth, ties upward, which on nonnegative values is `round`'s
half-up rule). -/
def roundTo2 (q : ℚ) : ℚ := (round (q * 100) : ℤ) / 100

/-- The full comparison payload of a cache hit (app.js lines 600-631). -/
structure ComparePayload where
  remoteBytes : Nat
  remoteFormatted : String
  remoteCount : Option Nat
  remoteCachedAt : Nat
  localBytes : Nat
  localFormatted : String
  localCachedAt : Option Nat
  differenceBytes : Int
  differenceFormatted : String
  direction : String
  percentageSynced : ℚ
  isSynced : Bool
  lastModified : Option Nat
  lastModifiedFormatted : Option String
  remoteLastUpdate : Option Nat
  localLastUpdate : Option Nat
  deriving Repr, DecidableEq

/-- The comparison arithmetic and payload assembly of the cache-hit path
(app.js lines 589-631). -/
def buildComparison (remoteSizeData : CacheEntry) (localSizeBytes : Nat)
    (localCachedAt : Option Nat) (lastModified : Option Nat)
    (remoteLastUpdate localLastUpdate : Option Nat) : ComparePayload :=
  let remoteSizeBytes := remoteSizeData.bytes
  let difference : Int := (remoteSizeBytes : Int) - (localSizeBytes : Int)
  let percentageSynced : ℚ :=
    if 0 < remoteSizeBytes then roundTo2 ((localSizeBytes : ℚ) / (remoteSizeBytes : ℚ) * 100)
    else 0
  { remoteBytes := remoteSizeBytes,
    remoteFormatted := formatBytes remoteSizeBytes,
    remoteCount := remoteSizeData.count,
    remoteCachedAt := remoteSizeData.timestamp,
    localBytes := localSizeBytes,
    localFormatted := formatBytes localSizeBytes,
    localCachedAt := localCachedAt,
    differenceBytes := difference,
    differenceFormatted := formatBytes difference.natAbs,
    direction := if 0 < difference then ("remote-larger")
      else if difference < 0 then ("local-larger") else ("equal"),
    percentageSynced := percentageSynced,
    isSynced := difference.natAbs == 0,
    lastModified := lastModified,
    lastModifiedFormatted := formatDateToLocal lastModified,
    remoteLastUpdate := remoteLastUpdate,
    localLastUpdate := localLastUpdate }

/-- The four response shapes of `POST /api/compare`. -/
inductive CompareResponse where
  | badRequest (message : String)
  | serverError (message : String)
  | cacheMiss (remotePath localPath : Str) (lastModified : Option Nat)
      (lastModifiedFormatted : Option String) (localBytes : Nat) (localFormatted : String)
      (localCachedAt : Option Nat) (lastFullUpdate : Option Nat)
      (updateInProgress : Bool) (updateStartTime : Option Nat)
  | comparison (payload : ComparePayload)
  deriving Repr, DecidableEq

/-- The HTTP status code attached to each response shape (app.js lines
514, 521, 569, 633, 636). -/
def statusOf : CompareResponse → Nat
  | CompareResponse.badRequest _ => 400
  | CompareResponse.serverError _ => 500
  | CompareResponse.cacheMiss _ _ _ _ _ _ _ _ _ _ => 404
  | CompareResponse.comparison _ => 200

/-- `addToLocalCache` (app.js lines 357-394): throws when the directory
does not exist or when the size probe fails; on success builds the entry,
inserts it into the local store, and pushes a history sample
unconditionally. -/
def addToLocalCache (directoryPath : Str) (lc : CacheState) (hist : HistMap)
    (ex : Str → Bool) (probe : Str → Except Str Nat) (now dur : Nat) :
    Except Str (CacheEntry × CacheState × HistMap) :=
  if ex directoryPath = false then Except.error ("Directory does not exist").data
  else
    match probe directoryPath with
    | Except.error msg => Except.error msg
    | Except.ok sizeBytes =>
        let dirInfo : CacheEntry :=
          { bytes := sizeBytes, count := none, timestamp := now,
            calculationDurationMs := dur, error := none }
        Except.ok (dirInfo, { lc with data := mapSet lc.data directoryPath dirInfo },
          mapSet hist directoryPath
            (historyAppendOnDemand ((mapGet hist directoryPath).getD []) now sizeBytes))

/-- Step 1 of the compare endpoint (app.js lines 528-555): use the cached
local entry when present; otherwise probe and insert via
`addToLocalCache`; if that throws, fall back to a direct uncached size
computation (a separate `getDirectorySize` invocation, `probeDirect`)
which still appends a history sample but yields no cached entry
(`cachedAt` is `none`); a failure of the fallback itself propagates to
the endpoint's catch-all.  Returns the resolved byte count, the
timestamp of the cache entry used, and the updated store and history. -/
def resolveLocal (localPath : Str) (lc : CacheState) (hist : HistMap)
    (ex : Str → Bool) (probeAdd probeDirect : Str → Except Str Nat) (now dur : Nat) :
    Except Str (Nat × Option Nat × CacheState × HistMap) :=
  match mapGet lc.data localPath with
  | some localSizeData =>
      Except.ok (localSizeData.bytes, some localSizeData.timestamp, lc, hist)
  | none =>
      match addToLocalCache localPath lc hist ex probeAdd now dur with
      | Except.ok r => Except.ok (r.1.bytes, some r.1.timestamp, r.2.1, r.2.2)
      | Except.error _ =>
          match probeDirect localPath with
          | Except.ok localSizeBytes =>
              Except.ok (localSizeBytes, none, lc,
                mapSet hist localPath
                  (historyAppendOnDemand ((mapGet hist localPath).getD []) now localSizeBytes))
          | Except.error msg => Except.error msg

/-- The `POST /api/compare` handler (app.js lines 509-640): validate the
request, resolve the local entry (caching it on demand), then either
report a cache miss for an uncached remote path or return the full
comparison payload.  Returns the response together with the possibly
updated local store and history map. -/
def compareHandler (remotePath localPath : Str) (rc lc : CacheState) (hist : HistMap)
    (ex : Str → Bool) (probeAdd probeDirect : Str → Except Str Nat) (now dur : Nat) :
    CompareResponse × CacheState × HistMap :=
  if remotePath = [] ∨ localPath = [] then
    (CompareResponse.badRequest ("Both remotePath and localPath are required"), lc, hist)
  else if ex localPath = false then
    (CompareResponse.badRequest ("Local path does not exist"), lc, hist)
  else
    match resolveLocal localPath lc hist ex probeAdd probeDirect now dur with
    | Except.error msg => (CompareResponse.serverError (String.mk msg), lc, hist)
    | Except.ok (localSizeBytes, localCachedAt, lc', hist') =>
        match mapGet rc.data remotePath with
        | none =>
            let lastModified := getLastModified hist' localPath
            (CompareResponse.cacheMiss remotePath localPath lastModified
              (formatDateToLocal lastModified) localSizeBytes (formatBytes localSizeBytes)
              localCachedAt rc.lastUpdated rc.updateInProgress rc.updateStartTime,
             lc', hist')
        | some remoteSizeData =>
            let lastModified := getLastModified hist' localPath
            (CompareResponse.comparison (buildComparison remoteSizeData localSizeBytes
              localCachedAt lastModified rc.lastUpdated lc'.lastUpdated), lc', hist')

/-- The comparison arithmetic of `buildComparison`, stated against the
payload's own fields. -/
theorem buildComparison_math (rd : CacheEntry) (lb : Nat) (ca : Option Nat)
    (lm : Option Nat) (rlu llu : Option Nat) :
    (buildComparison rd lb ca lm rlu llu).differenceBytes
      = ((buildComparison rd lb ca lm rlu llu).remoteBytes : Int)
        - ((buildComparison rd lb ca lm rlu llu).localBytes : Int) ∧
    (0 < (buildComparison rd lb ca lm rlu llu).differenceBytes →
      (buildComparison rd lb ca lm rlu llu).direction = ("remote-larger")) ∧
    ((buildComparison rd lb ca lm rlu llu).differenceBytes < 0 →
      (buildComparison rd lb ca lm rlu llu).direction = ("local-larger")) ∧
    ((buildComparison rd lb ca lm rlu llu).differenceBytes = 0 →
      (buildComparison rd lb ca lm rlu llu).direction = ("equal")) ∧
    ((buildComparison rd lb ca lm rlu llu).remoteBytes = 0 →
      (buildComparison rd lb ca lm rlu llu).percentageSynced = 0) ∧
    (0 < (buildComparison rd lb ca lm rlu llu).remoteBytes →
      (buildComparison rd lb ca lm rlu llu).percentageSynced
        = roundTo2 (((buildComparison rd lb ca lm rlu llu).localBytes : ℚ)
            / ((buildComparison rd lb ca lm rlu llu).remoteBytes : ℚ) * 100)) ∧
    ((buildComparison rd lb ca lm rlu llu).isSynced = true ↔
      (buildComparison rd lb ca lm rlu llu).differenceBytes = 0) := by
  refine ⟨rfl, fun h => ?_, fun h => ?_, fun h => ?_, fun h => ?_, fun h => ?_, ?_⟩
  · simp only [buildComparison] at h ⊢
    rw [if_pos h]
  · simp only [buildComparison] at h ⊢
    rw [if_neg (by omega), if_pos h]
  · simp only [buildComparison] at h ⊢
    rw [if_neg (by omega), if_neg (by omega)]
  · simp only [buildComparison] at h ⊢
    rw [if_neg (by omega)]
  · simp only [buildComparison] at h ⊢
    rw [if_pos h]
  · simp only [buildComparison, beq_iff_eq, Int.natAbs_eq_zero]

/-- Claim C5: every comparison request that hits the remote cache returns
a payload with `difference = remoteBytes - localBytes`; direction
`remote-larger`, `local-larger` or `equal` according to the sign of the
difference; `percentageSynced = localBytes / remoteBytes * 100` rounded
to two decimals and equal to 0 whenever `remoteBytes = 0`; and `isSynced`
true exactly when the difference is 0. -/
theorem compare_hit_math (remotePath localPath : Str) (rc lc : CacheState) (hist : HistMap)
    (ex : Str → Bool) (probeAdd probeDirect : Str → Except Str Nat) (now dur : Nat)
    (p : ComparePayload) (st : CacheState × HistMap)
    (h : compareHandler remotePath localPath rc lc hist ex probeAdd probeDirect now dur
      = (CompareResponse.comparison p, st)) :
    p.differenceBytes = (p.remoteBytes : Int) - (p.localBytes : Int) ∧
    (0 < p.differenceBytes → p.direction = ("remote-larger")) ∧
    (p.differenceBytes < 0 → p.direction = ("local-larger")) ∧
    (p.differenceBytes = 0 → p.direction = ("equal")) ∧
    (p.remoteBytes = 0 → p.percentageSynced = 0) ∧
    (0 < p.remoteBytes →
      p.percentageSynced = roundTo2 ((p.localBytes : ℚ) / (p.remoteBytes : ℚ) * 100)) ∧
    (p.isSynced = true ↔ p.differenceBytes = 0) := by
  unfold compareHandler at h
  split at h
  · exact absurd (congrArg (fun x => Prod.fst x) h) (by simp)
  · split at h
    · exact absurd (congrArg (fun x => Prod.fst x) h) (by simp)
    · split at h
      · exact absurd (congrArg (fun x => Prod.fst x) h) (by simp)
      · split at h
        · exact absurd (congrArg (fun x => Prod.fst x) h) (by simp)
        · have hp := congrArg (fun x => Prod.fst x) h
          simp only [CompareResponse.comparison.injEq] at hp
          rw [← hp]
          exact buildComparison_math _ _ _ _ _ _

/-- An example remote key as stored by the refresh cycle. -/
def exampleRemoteKey : Str := ("gdrive:").data

/-- An example cached remote entry. -/
def exampleRemoteEntry : CacheEntry :=
  { bytes := 5368709120, count := some 150, timestamp := 11,
    calculationDurationMs := 45200, error := none }

/-- A remote store holding `exampleRemoteKey`. -/
def exampleRemoteStore : CacheState :=
  { data := [(exampleRemoteKey, exampleRemoteEntry)], lastUpdated := some 12,
    updateInProgress := false, updateStartTime := none }

/-- An example cached local entry with the same byte count as
`exampleRemoteEntry`. -/
def exampleLocalCachedEntry : CacheEntry :=
  { bytes := 5368709120, count := none, timestamp := 13,
    calculationDurationMs := 9, error := none }

/-- A local store holding `exampleDir` with `exampleLocalCachedEntry`. -/
def exampleLocalCachedStore : CacheState :=
  { data := [(exampleDir, exampleLocalCachedEntry)], lastUpdated := some 14,
    updateInProgress := false, updateStartTime := none }

/-- Witness for `compare_hit_math`: a request hitting the remote cache
with equal remote and local byte counts yields direction `equal`,
`isSynced` true and `percentageSynced = 100`. -/
theorem compare_hit_math_witness :
    (buildComparison exampleRemoteEntry 5368709120 (some 13) none (some 12)
      (some 14)).direction = ("equal") ∧
    (buildComparison exampleRemoteEntry 5368709120 (some 13) none (some 12)
      (some 14)).isSynced = true ∧
    (buildComparison exampleRemoteEntry 5368709120 (some 13) none (some 12)
      (some 14)).percentageSynced = 100 := by
  have h := compare_hit_math exampleRemoteKey exampleDir exampleRemoteStore
    exampleLocalCachedStore [] fsAllExist probeAlwaysFails probeAlwaysFails 20 1
    (buildComparison exampleRemoteEntry 5368709120 (some 13) none (some 12) (some 14))
    (exampleLocalCachedStore, []) rfl
  have hrb : (buildComparison exampleRemoteEntry 5368709120 (some 13) none (some 12)
      (some 14)).remoteBytes = 5368709120 := rfl
  have hlb : (buildComparison exampleRemoteEntry 5368709120 (some 13) none (some 12)
      (some 14)).localBytes = 5368709120 := rfl
  have hdiff : (buildComparison exampleRemoteEntry 5368709120 (some 13) none (some 12)
      (some 14)).differenceBytes = 0 := by
    rw [h.1, hrb, hlb]; norm_num
  refine ⟨h.2.2.2.1 hdiff, (h.2.2.2.2.2.2).mpr hdiff, ?_⟩
  have hpct := h.2.2.2.2.2.1 (by rw [hrb]; norm_num)
  rw [hpct, hrb, hlb]
  norm_num [roundTo2]

/-- The cache-miss branch of the compare endpoint, fully characterised
(shared support for the cache-miss claims). -/
theorem compareHandler_miss_eq (remotePath localPath : Str) (rc lc : CacheState)
    (hist : HistMap) (ex : Str → Bool) (probeAdd probeDirect : Str → Except Str Nat)
    (now dur : Nat) (localSizeBytes : Nat) (localCachedAt : Option Nat)
    (lc' : CacheState) (hist' : HistMap)
    (hrp : remotePath ≠ []) (hlp : localPath ≠ []) (hex : ex localPath = true)
    (hres : resolveLocal localPath lc hist ex probeAdd probeDirect now dur
      = Except.ok (localSizeBytes, localCachedAt, lc', hist'))
    (hmiss : mapGet rc.data remotePath = none) :
    compareHandler remotePath localPath rc lc hist ex probeAdd probeDirect now dur
      = (CompareResponse.cacheMiss remotePath localPath
          (getLastModified hist' localPath)
          (formatDateToLocal (getLastModified hist' localPath))
          localSizeBytes (formatBytes localSizeBytes) localCachedAt
          rc.lastUpdated rc.updateInProgress rc.updateStartTime, lc', hist') := by
  have h1 : ¬ (remotePath = [] ∨ localPath = []) := by simp [hrp, hlp]
  have h2 : ¬ (ex localPath = false) := by simp [hex]
  simp only [compareHandler, if_neg h1, if_neg h2, hres, hmiss]

/-- Claim C9: a comparison request with a valid, existing local path
whose remote path is absent from the remote store yields the 404-class
cache-miss response carrying the resolved local entry (its byte count,
formatted size and cache timestamp, resolved through the cache or probed
and inserted on demand), the inferred last-changed time with its
display-formatted form, and the remote store's refresh status — and, by
the shape of the `cacheMiss` constructor, no remote size data. -/
theorem compare_cache_miss_spec (remotePath localPath : Str) (rc lc : CacheState)
    (hist : HistMap) (ex : Str → Bool) (probeAdd probeDirect : Str → Except Str Nat)
    (now dur : Nat) (localSizeBytes : Nat) (localCachedAt : Option Nat)
    (lc' : CacheState) (hist' : HistMap)
    (hrp : remotePath ≠ []) (hlp : localPath ≠ []) (hex : ex localPath = true)
    (hres : resolveLocal localPath lc hist ex probeAdd probeDirect now dur
      = Except.ok (localSizeBytes, localCachedAt, lc', hist'))
    (hmiss : mapGet rc.data remotePath = none) :
    compareHandler remotePath localPath rc lc hist ex probeAdd probeDirect now dur
      = (CompareResponse.cacheMiss remotePath localPath
          (getLastModified hist' localPath)
          (formatDateToLocal (getLastModified hist' localPath))
          localSizeBytes (formatBytes localSizeBytes) localCachedAt
          rc.lastUpdated rc.updateInProgress rc.updateStartTime, lc', hist') ∧
    statusOf (compareHandler remotePath localPath rc lc hist ex probeAdd probeDirect
      now dur).1 = 404 := by
  have heq := compareHandler_miss_eq remotePath localPath rc lc hist ex probeAdd
    probeDirect now dur localSizeBytes localCachedAt lc' hist' hrp hlp hex hres hmiss
  exact ⟨heq, by rw [heq]; rfl⟩

/-- A remote store with no cached entries but previous refresh metadata. -/
def exampleRemoteMissStore : CacheState :=
  { data := [], lastUpdated := some 12, updateInProgress := false, updateStartTime := none }

/-- Witness for `compare_cache_miss_spec`: a request against an empty
remote store is answered with the 404-class cache-miss response. -/
theorem compare_cache_miss_spec_witness :
    statusOf (compareHandler exampleRemoteKey exampleDir exampleRemoteMissStore
      exampleLocalCachedStore [] fsAllExist probeAlwaysFails probeAlwaysFails 20 1).1
      = 404 :=
  (compare_cache_miss_spec exampleRemoteKey exampleDir exampleRemoteMissStore
    exampleLocalCachedStore [] fsAllExist probeAlwaysFails probeAlwaysFails 20 1
    5368709120 (some 13) exampleLocalCachedStore [] (by decide) (by decide) rfl rfl
    rfl).2

/-! ### Claim C4: every remote-store key is a bare remote root -/

/-- The inputs of one remote refresh cycle. -/
structure RemoteCycleInput where
  listing : Except Str (List Str)
  probe : Str → Except Str (Nat × Nat)
  nowFor : Str → Nat
  durFor : Str → Nat
  endNow : Nat

/-- A run of successive remote refresh cycles over a store
(`updateRemoteCache` is the only writer of the remote store's map in
app.js). -/
def runRemoteCycles (s : CacheState) : List RemoteCycleInput → CacheState
  | [] => s
  | c :: cs =>
      runRemoteCycles (updateRemoteCache s c.listing c.probe c.nowFor c.durFor c.endNow) cs

/-- A bare remote-root key: a colon-free remote name followed by `:`,
with an empty subpath. -/
def BareRootKey (k : Str) : Prop := ∃ name : Str, (':' ∉ name) ∧ k = name ++ [':']

/-- `Map.set` adds no key other than the one being set. -/
theorem mapKeys_mapSet {α : Type} (m : List (Str × α)) (k : Str) (v : α) :
    ∀ k', k' ∈ mapKeys (mapSet m k v) → k' ∈ mapKeys m ∨ k' = k := by
  intro k' hk'
  unfold mapSet at hk'
  split at hk'
  · simp only [mapKeys, List.map_map, List.mem_map, Function.comp] at hk'
    obtain ⟨p, hpm, hpk⟩ := hk'
    by_cases hc : (p.1 == k) = true
    · rw [if_pos hc] at hpk
      right; exact hpk.symm ▸ rfl
    · rw [if_neg hc] at hpk
      left
      exact hpk ▸ List.mem_map_of_mem _ hpm
  · simp only [mapKeys, List.map_append, List.mem_append] at hk'
    rcases hk' with h | h
    · left; exact h
    · right; simpa using h

/-- One remote probe iteration only ever introduces bare-root keys. -/
theorem updateRemoteCacheStep_keys (probe : Str → Except Str (Nat × Nat))
    (nowFor durFor : Str → Nat) (temp : EntryMap) (r : Str)
    (hr : ':' ∉ r) (htemp : ∀ k ∈ mapKeys temp, BareRootKey k) :
    ∀ k ∈ mapKeys (updateRemoteCacheStep probe nowFor durFor temp r), BareRootKey k := by
  intro k hk
  simp only [updateRemoteCacheStep] at hk
  split at hk
  · rcases mapKeys_mapSet temp (r ++ [':']) _ k hk with h | h
    · exact htemp k h
    · exact ⟨r, hr, h⟩
  · exact htemp k hk

/-- The remote probe loop only ever introduces bare-root keys. -/
theorem remoteProbeLoop_keys (probe : Str → Except Str (Nat × Nat))
    (nowFor durFor : Str → Nat) :
    ∀ (remotes : List Str) (temp : EntryMap),
      (∀ r ∈ remotes, ':' ∉ r) → (∀ k ∈ mapKeys temp, BareRootKey k) →
      ∀ k ∈ mapKeys (remotes.foldl (updateRemoteCacheStep probe nowFor durFor) temp),
        BareRootKey k := by
  intro remotes
  induction remotes with
  | nil => intro temp _ htemp k hk; exact htemp k hk
  | cons r rs ih =>
      intro temp hnames htemp k hk
      simp only [List.foldl_cons] at hk
      exact ih _ (fun x hx => hnames x (List.mem_cons_of_mem _ hx))
        (updateRemoteCacheStep_keys probe nowFor durFor temp r
          (hnames r (List.mem_cons_self _ _)) htemp) k hk

/-- One remote refresh cycle preserves the bare-root key invariant. -/
theorem updateRemoteCache_keys (s : CacheState) (listing : Except Str (List Str))
    (probe : Str → Except Str (Nat × Nat)) (nowFor durFor : Str → Nat) (endNow : Nat)
    (hnames : ∀ rs, listing = Except.ok rs → ∀ r ∈ rs, ':' ∉ r)
    (hs : ∀ k ∈ mapKeys s.data, BareRootKey k) :
    ∀ k ∈ mapKeys (updateRemoteCache s listing probe nowFor durFor endNow).data,
      BareRootKey k := by
  cases listing with
  | error e => intro k hk; exact hs k hk
  | ok remotes =>
      intro k hk
      exact remoteProbeLoop_keys probe nowFor durFor remotes s.data
        (hnames remotes rfl) hs k hk

/-- Every run of remote refresh cycles preserves the bare-root key
invariant. -/
theorem runRemoteCycles_keys (cycles : List RemoteCycleInput) :
    ∀ s : CacheState,
      (∀ c ∈ cycles, ∀ rs, c.listing = Except.ok rs → ∀ r ∈ rs, ':' ∉ r) →
      (∀ k ∈ mapKeys s.data, BareRootKey k) →
      ∀ k ∈ mapKeys (runRemoteCycles s cycles).data, BareRootKey k := by
  induction cycles with
  | nil => intro s _ hs k hk; exact hs k hk
  | cons c cs ih =>
      intro s hnames hs k hk
      exact ih _ (fun x hx => hnames x (List.mem_cons_of_mem _ hx))
        (updateRemoteCache_keys s c.listing c.probe c.nowFor c.durFor c.endNow
          (hnames c (List.mem_cons_self _ _)) hs) k hk

/-- A lookup with a non-empty subpath misses every map whose keys are all
bare roots. -/
theorem bare_root_lookup_miss (m : EntryMap)
    (hm : ∀ k ∈ mapKeys m, BareRootKey k)
    (name sub : Str) (hsub : sub ≠ []) (hlast : sub.getLast? ≠ some ':') :
    mapGet m (name ++ ':' :: sub) = none := by
  unfold mapGet
  rw [List.find?_eq_none.mpr ?_]
  · rfl
  · intro p hp
    obtain ⟨n, _hn, hkeq⟩ := hm p.1 (List.mem_map_of_mem _ hp)
    simp only [beq_iff_eq]
    intro habs
    rw [hkeq] at habs
    have h1 : (n ++ [':']).getLast? = some ':' := List.getLast?_concat n
    rw [habs] at h1
    rw [List.getLast?_append_of_ne_nil _ (by simp)] at h1
    cases sub with
    | nil => exact hsub rfl
    | cons a as =>
        rw [List.getLast?_cons_cons] at h1
        exact hlast h1

/-- Claim C4: starting from the empty remote store, after any run of
remote refresh cycles whose listings return colon-free remote names,
every key ever present in the remote store is a bare remote root
`name ++ ":"` with an empty subpath (first conjunct, since the cycle
stores each enumerated remote under `${remote}:`); consequently a lookup
whose remote path carries a non-empty subpath (one not ending in a
colon, such as `name:sub/dir`) misses the store (second conjunct), and an
otherwise valid comparison request with such a remote path is answered
with the 404-class cache-miss response (third conjunct). -/
theorem remote_store_keys_spec (cycles : List RemoteCycleInput)
    (hnames : ∀ c ∈ cycles, ∀ rs, c.listing = Except.ok rs → ∀ r ∈ rs, ':' ∉ r) :
    (∀ k ∈ mapKeys (runRemoteCycles initialCache cycles).data, BareRootKey k) ∧
    (∀ name sub : Str, sub ≠ [] → sub.getLast? ≠ some ':' →
      mapGet (runRemoteCycles initialCache cycles).data (name ++ ':' :: sub) = none) ∧
    (∀ name sub : Str, sub ≠ [] → sub.getLast? ≠ some ':' →
      ∀ (localPath : Str) (lc : CacheState) (hist : HistMap) (ex : Str → Bool)
        (probeAdd probeDirect : Str → Except Str Nat) (now dur localSizeBytes : Nat)
        (localCachedAt : Option Nat) (lc' : CacheState) (hist' : HistMap),
        localPath ≠ [] → ex localPath = true →
        resolveLocal localPath lc hist ex probeAdd probeDirect now dur
          = Except.ok (localSizeBytes, localCachedAt, lc', hist') →
        statusOf (compareHandler (name ++ ':' :: sub) localPath
          (runRemoteCycles initialCache cycles) lc hist ex probeAdd probeDirect
          now dur).1 = 404) := by
  have hkeys := runRemoteCycles_keys cycles initialCache hnames
    (by intro k hk; simp [initialCache, mapKeys] at hk)
  refine ⟨hkeys, fun name sub hs hl => bare_root_lookup_miss _ hkeys name sub hs hl, ?_⟩
  intro name sub hs hl localPath lc hist ex probeAdd probeDirect now dur lb ca lc' hist'
    hlp hex hres
  have hmiss := bare_root_lookup_miss _ hkeys name sub hs hl
  have heq := compareHandler_miss_eq (name ++ ':' :: sub) localPath
    (runRemoteCycles initialCache cycles) lc hist ex probeAdd probeDirect now dur
    lb ca lc' hist' (by simp) hlp hex hres hmiss
  rw [heq]
  rfl

/-- A remote-size probe that always succeeds with a fixed size. -/
def probeRemoteConst : Str → Except Str (Nat × Nat) := fun _ => Except.ok (5368709120, 150)

/-- One remote refresh cycle enumerating the single remote `gdrive`. -/
def exampleRemoteCycle : RemoteCycleInput :=
  { listing := Except.ok [("gdrive").data], probe := probeRemoteConst,
    nowFor := clockAt300, durFor := clockAt300, endNow := 7 }

/-- Witness for `remote_store_keys_spec`: after a refresh cycle that
cached `gdrive:`, a lookup of `gdrive:sub/dir` misses the store. -/
theorem remote_store_keys_spec_witness :
    mapGet (runRemoteCycles initialCache [exampleRemoteCycle]).data
      (("gdrive").data ++ ':' :: ("sub/dir").data) = none := by
  have hnames : ∀ c ∈ [exampleRemoteCycle], ∀ rs, c.listing = Except.ok rs →
      ∀ r ∈ rs, ':' ∉ r := by
    intro c hc rs hrs r hr
    rw [List.mem_singleton] at hc
    subst hc
    simp only [exampleRemoteCycle] at hrs
    cases hrs
    rw [List.mem_singleton] at hr
    subst hr
    decide
  exact (remote_store_keys_spec [exampleRemoteCycle] hnames).2.1 ("gdrive").data
    ("sub/dir").data (by decide) (by decide)

end RcloneReporter
